import Mathlib

/-!
Shallow embedding of `mainn.py` from the pdf-edit-api repository.

Conventions of the embedding:

* A file system is an association list from paths to file contents; file
  contents are opaque byte strings modelled as `String`.
* Every external collaborator (pypdf, pdftotext, pdf2image, pytesseract,
  the Gemini call, LibreOffice, pdfunite, `os.remove`) is a field of an
  `Env` record: a deterministic function of exactly the data the real
  tool receives.  A tool that reads a file receives the content found at
  the path it is pointed at (`Option Content`, `none` when the file is
  absent); `none`/`ToolRun.raises` model a raised Python exception.
* Python functions that only read their path argument are embedded as
  functions of the content at that path; functions that write files take
  and return the file system.
-/

namespace PdfEditApi

abbrev Path := String
abbrev Content := String
abbrev FS := List (Path × Content)

def FS.read : FS → Path → Option Content
  | [], _ => none
  | (q, c) :: rest, p => if q = p then some c else FS.read rest p

def FS.erase : FS → Path → FS
  | [], _ => []
  | (q, c) :: rest, p => if q = p then FS.erase rest p else (q, c) :: FS.erase rest p

def FS.write (fs : FS) (p : Path) (c : Content) : FS :=
  (p, c) :: FS.erase fs p

/-- Python `str.isspace` characters relevant to ASCII text (the set used by
`str.split()` and `str.strip()` with no arguments). -/
def isPySpace (c : Char) : Bool :=
  c == ' ' || c == '\t' || c == '\n' || c == '\r' || c == '\x0b' || c == '\x0c'

/-- Python `s.strip()`. -/
def pyStrip (s : String) : String :=
  String.mk (((s.data.dropWhile isPySpace).reverse.dropWhile isPySpace).reverse)

/-- Auxiliary scan for `pyWordCount`: `inWord` records whether the previous
character was part of a word. -/
def pyWordCountAux : List Char → Bool → Nat
  | [], _ => 0
  | c :: rest, inWord =>
    if isPySpace c then pyWordCountAux rest false
    else (if inWord then 0 else 1) + pyWordCountAux rest true

/-- `len(s.split())` in Python: number of maximal whitespace-free runs. -/
def pyWordCount (s : String) : Nat :=
  pyWordCountAux s.data false

/-- Python `os.path.splitext(s)[0]`: drop the last dot-extension
(for the names used by the pipeline, which always carry a suffix). -/
def splitextStem (s : String) : String :=
  if '.' ∈ s.data then
    String.mk (((s.data.reverse.dropWhile (fun c => c != '.')).drop 1).reverse)
  else s

/-- Outcome of one `subprocess.run` invocation: either an exception escapes
(`raises`, e.g. `FileNotFoundError`), or the subprocess completes with a
return code and captured stdout. -/
inductive ToolRun where
  | raises : ToolRun
  | completes (returncode : Int) (stdout : String) : ToolRun

/-- Outcome of one LibreOffice invocation: whether `subprocess.run(check=True)`
raised, and the content (if any) the renderer deposited at the expected
same-stem `.pdf` path. -/
structure RenderOutcome where
  raises : Bool
  deposited : Option Content

/-- The external collaborators, as deterministic functions of their inputs. -/
structure Env where
  /-- pypdf `len(PdfReader(f).pages)`; `none` models `PdfReadError`/any exception. -/
  readPdfPages : Content → Option Nat
  /-- `pdftotext -f 1 -l 1 <pdf> -` (page-1 probe used by the scan check). -/
  pdftotextPage1 : Option Content → ToolRun
  /-- `pdftotext -l <n> <pdf> -` (direct extraction of the first `n` pages). -/
  pdftotextPages : Option Content → Nat → ToolRun
  /-- pdf2image `convert_from_path(pdf, last_page=n)`: page raster images
  (opaque ids); `none` models a raised exception. -/
  convertFromPath : Option Content → Nat → Option (List Nat)
  /-- pytesseract `image_to_string(image, timeout=60)`; `none` models a raised
  exception (including timeout). -/
  ocrImage : Nat → Option String
  /-- Gemini `model.generate_content(prompt).text`; `none` models any raised
  transport/service error. -/
  generateContent : String → Option String
  /-- `os.path.exists(SOFFICE_PATH)`. -/
  sofficeExists : Bool
  /-- One LibreOffice `--convert-to pdf` invocation on the given HTML content. -/
  soffice : Option Content → RenderOutcome
  /-- pypdf read + `reader.pages[start_page - 1:]` written out; `none` models a
  raised exception anywhere in `split_pdf`'s `try` block. -/
  splitPages : Option Content → Nat → Option Content
  /-- `pdfunite <inputs> <output>`: the concatenated content it writes on
  success; `none` models non-zero exit or a raised exception. -/
  pdfunite : List (Option Content) → Option Content

def PAGES_TO_PROCESS : Nat := 2

def REWRITE_PROMPT : String :=
  "Rewrite the following text, intelligently structuring it with HTML to improve readability.\nFormat the output as clean HTML body content, ready to be inserted into a <body> tag.\n- Analyze the text to identify titles, subtitles, and key points.\n- Use heading tags (e.g., <h1>, <h2>, <h3>) for titles and section headers.\n- Use the <strong> tag to bold important keywords, phrases, or labels.\n- Use <p> tags for paragraphs. Create lists (<ul> or <ol>) if the content is suitable for it.\n- Use <br> for line breaks only when absolutely necessary within a paragraph.\n- VERY IMPORTANT: Do NOT include <html>, <head>, or <body> tags in your response.\n\nHere is the text:\n"

/-- `get_pdf_page_count`: page count, or 0 on any exception (missing file,
`PdfReadError`, anything else). -/
def get_pdf_page_count (env : Env) (pdf : Option Content) : Nat :=
  match pdf with
  | none => 0
  | some c =>
    match env.readPdfPages c with
    | none => 0
    | some n => n

/-- `check_if_scanned`: probe page 1 with pdftotext; scanned iff the probe
exits non-zero or the stripped stdout has fewer than 20 words; any raised
exception yields `False` (assume text-based). -/
def check_if_scanned (env : Env) (pdf : Option Content) : Bool :=
  match env.pdftotextPage1 pdf with
  | ToolRun.raises => false
  | ToolRun.completes rc out =>
    let first_page_text := pyStrip out
    rc != 0 || decide (pyWordCount first_page_text < 20)

/-- The per-image OCR loop inside `run_ocr_on_pdf`:
`"".join(image_to_string(image, timeout=60) + "\n\n" for image in images)`,
where any raised exception aborts the whole join. -/
def ocrJoin (env : Env) : List Nat → Option String
  | [] => some ""
  | img :: rest =>
    match env.ocrImage img with
    | none => none
    | some t =>
      match ocrJoin env rest with
      | none => none
      | some r => some (t ++ "\n\n" ++ r)

/-- `run_ocr_on_pdf`: rasterize the first `num_pages` pages and OCR each;
`none` on any exception. -/
def run_ocr_on_pdf (env : Env) (pdf : Option Content) (num_pages : Nat) : Option String :=
  match env.convertFromPath pdf num_pages with
  | none => none
  | some images => ocrJoin env images

/-- `extract_text_from_pdf`: `pdftotext -l num_pages` with `check=True`;
stdout on exit 0, `none` on non-zero exit (`CalledProcessError`) or any
other exception. -/
def extract_text_from_pdf (env : Env) (pdf : Option Content) (num_pages : Nat) : Option String :=
  match env.pdftotextPages pdf num_pages with
  | ToolRun.raises => none
  | ToolRun.completes rc out => if rc = 0 then some out else none

/-- `rewrite_text_with_ai`: empty-or-blank input short-circuits to `""`
without calling the service; otherwise one `generate_content` round trip,
returning the response verbatim or `none` on a raised error.  The second
component counts the service calls made (0 or 1). -/
def rewrite_text_with_ai (env : Env) (text : String) : Option String × Nat :=
  if text = "" ∨ pyStrip text = "" then (some "", 0)
  else
    match env.generateContent (REWRITE_PROMPT ++ text) with
    | some r => (some r, 1)
    | none => (none, 1)

/-- `convert_html_to_pdf`: fail up front if the LibreOffice binary is missing;
otherwise invoke it on the HTML file, then report the sibling
`<stem>.pdf` path if such a file now exists, else failure. -/
def convert_html_to_pdf (env : Env) (fs : FS) (html_path : Path) : Option Path × FS :=
  if env.sofficeExists = false then (none, fs)
  else
    let outcome := env.soffice (FS.read fs html_path)
    let expected_pdf := splitextStem html_path ++ ".pdf"
    let fs1 :=
      match outcome.deposited with
      | some c => FS.write fs expected_pdf c
      | none => fs
    if outcome.raises then (none, fs1)
    else
      match FS.read fs1 expected_pdf with
      | some _ => (some expected_pdf, fs1)
      | none => (none, fs1)

/-- `split_pdf`: write pages `start_page..end` of the original to
`output_pdf_path`, returning `True`; any exception yields `False`. -/
def split_pdf (env : Env) (fs : FS) (original_pdf_path : Path) (start_page : Nat)
    (output_pdf_path : Path) : Bool × FS :=
  match env.splitPages (FS.read fs original_pdf_path) start_page with
  | some c => (true, FS.write fs output_pdf_path c)
  | none => (false, fs)

/-- `merge_pdfs`: `pdfunite` over the listed paths; on success the tool writes
the concatenation to `final_output_path` and the function returns `True`;
non-zero exit or exception yields `False`. -/
def merge_pdfs (env : Env) (fs : FS) (pdf_paths : List Path) (final_output_path : Path) :
    Bool × FS :=
  match env.pdfunite (pdf_paths.map (fun p => FS.read fs p)) with
  | some c => (true, FS.write fs final_output_path c)
  | none => (false, fs)

/-- The HTML shell `process_pdf` wraps around the AI-returned body
(the `html_content` f-string, braces doubled in the source rendered here
as literal braces). -/
def html_wrap (body : String) : String :=
  "\n        <!DOCTYPE html><html lang=\"en\"><head><meta charset=\"UTF-8\"><title>Processed PDF</title>\n        <style>body\x7bfont-family:sans-serif;line-height:1.6\x7dh1,h2,h3\x7bfont-weight:600\x7d</style></head>\n        <body>" ++ body ++ "</body></html>\n        "

/-- Result of the `try` body of `process_pdf`, before the `finally` cleanup:
the returned boolean, the file system as left by the body, the `temp_files`
list accumulated for cleanup, and the number of AI-service calls made. -/
structure CoreResult where
  success : Bool
  fs : FS
  temps : List Path
  aiCalls : Nat

/-- The `try` body of `process_pdf`, step for step.  `tmpStem ++ ".html"` is
the name `tempfile.NamedTemporaryFile(suffix=".html")` allocates for the
wrapper markup, `tmpTail` the name allocated for the spliced-tail PDF
(created on disk, empty, before `split_pdf` runs, exactly as
`NamedTemporaryFile(delete=False)` does). -/
def processCore (env : Env) (fs : FS) (input_pdf_path output_pdf_path tmpStem tmpTail : Path) :
    CoreResult :=
  let inC := FS.read fs input_pdf_path
  let page_count := get_pdf_page_count env inC
  if page_count = 0 then ⟨false, fs, [], 0⟩
  else
    match (if check_if_scanned env inC then run_ocr_on_pdf env inC PAGES_TO_PROCESS
           else extract_text_from_pdf env inC PAGES_TO_PROCESS) with
    | none => ⟨false, fs, [], 0⟩
    | some full_text =>
      if full_text = "" then ⟨false, fs, [], 0⟩
      else
        match rewrite_text_with_ai env full_text with
        | (none, ai) => ⟨false, fs, [], ai⟩
        | (some body, ai) =>
          if body = "" then ⟨false, fs, [], ai⟩
          else
            let html_path := tmpStem ++ ".html"
            let fs1 := FS.write fs html_path (html_wrap body)
            match convert_html_to_pdf env fs1 html_path with
            | (none, fs2) => ⟨false, fs2, [html_path], ai⟩
            | (some rendered, fs2) =>
              if page_count > PAGES_TO_PROCESS then
                let fs3 := FS.write fs2 tmpTail ""
                match split_pdf env fs3 input_pdf_path (PAGES_TO_PROCESS + 1) tmpTail with
                | (true, fs4) =>
                  match merge_pdfs env fs4 [rendered, tmpTail] output_pdf_path with
                  | (ok, fs5) => ⟨ok, fs5, [html_path, rendered, tmpTail], ai⟩
                | (false, fs4) =>
                  match FS.read fs4 rendered with
                  | some c => ⟨true, FS.write fs4 output_pdf_path c, [html_path, rendered], ai⟩
                  | none => ⟨false, fs4, [html_path, rendered], ai⟩
              else
                match FS.read fs2 rendered with
                | some c => ⟨true, FS.write fs2 output_pdf_path c, [html_path, rendered], ai⟩
                | none => ⟨false, fs2, [html_path, rendered], ai⟩

/-- One `os.remove(f)` guarded by `os.path.exists(f)`, with a failing removal
(`removeFails f = true`) swallowed. -/
def cleanupOne (removeFails : Path → Bool) (fs : FS) (p : Path) : FS :=
  match FS.read fs p with
  | some _ => if removeFails p then fs else FS.erase fs p
  | none => fs

/-- The `finally` block of `process_pdf`: attempt to remove every registered
temp file, swallowing failures. -/
def cleanup (removeFails : Path → Bool) (fs : FS) (files : List Path) : FS :=
  files.foldl (cleanupOne removeFails) fs

/-- Result of a full `process_pdf` run: the returned boolean, the file system
after cleanup, and the number of AI-service calls made. -/
structure RunResult where
  success : Bool
  fs : FS
  aiCalls : Nat

/-- `process_pdf`: the `try` body followed unconditionally by the `finally`
cleanup; `removeFails` models which `os.remove` calls raise. -/
def process_pdf (env : Env) (removeFails : Path → Bool) (fs : FS)
    (input_pdf_path output_pdf_path tmpStem tmpTail : Path) : RunResult :=
  let r := processCore env fs input_pdf_path output_pdf_path tmpStem tmpTail
  ⟨r.success, cleanup removeFails r.fs r.temps, r.aiCalls⟩

/-! ### Basic file-system lemmas -/

theorem FS.read_erase (fs : FS) (p q : Path) :
    FS.read (FS.erase fs p) q = if p = q then none else FS.read fs q := by
  induction fs with
  | nil => simp [FS.erase, FS.read]
  | cons hd rest ih =>
    obtain ⟨a, c⟩ := hd
    simp only [FS.erase]
    by_cases hap : a = p <;> by_cases hpq : p = q <;>
      simp_all [FS.read]

@[simp] theorem FS.read_write (fs : FS) (p q : Path) (c : Content) :
    FS.read (FS.write fs p c) q = if p = q then some c else FS.read fs q := by
  simp only [FS.write, FS.read, FS.read_erase]
  by_cases hpq : p = q <;> simp [hpq]

theorem FS.erase_of_read_none (fs : FS) (p : Path) (h : FS.read fs p = none) :
    FS.erase fs p = fs := by
  induction fs with
  | nil => rfl
  | cons hd rest ih =>
    obtain ⟨a, c⟩ := hd
    simp only [FS.read] at h
    by_cases hap : a = p
    · rw [if_pos hap] at h; cases h
    · rw [if_neg hap] at h
      simp only [FS.erase, if_neg hap]
      rw [ih h]

theorem FS.erase_erase (fs : FS) (p : Path) :
    FS.erase (FS.erase fs p) p = FS.erase fs p :=
  FS.erase_of_read_none _ _ (by simp [FS.read_erase])

theorem FS.erase_write (fs : FS) (p : Path) (c : Content) :
    FS.erase (FS.write fs p c) p = FS.erase fs p := by
  simp [FS.write, FS.erase, FS.erase_erase]

/-! ### Cleanup lemmas -/

theorem cleanup_nil (rf : Path → Bool) (fs : FS) : cleanup rf fs [] = fs := rfl

theorem cleanup_cons (rf : Path → Bool) (fs : FS) (q : Path) (rest : List Path) :
    cleanup rf fs (q :: rest) = cleanup rf (cleanupOne rf fs q) rest := rfl

theorem cleanupOne_read_of_ne (rf : Path → Bool) (fs : FS) (q p : Path) (h : q ≠ p) :
    FS.read (cleanupOne rf fs q) p = FS.read fs p := by
  unfold cleanupOne
  cases hq : FS.read fs q with
  | none => rfl
  | some c =>
    by_cases hrf : rf q <;> simp [hrf, FS.read_erase, h]

/-- Cleanup never touches a path outside the list being cleaned. -/
theorem cleanup_read_of_ne (rf : Path → Bool) (files : List Path) (fs : FS) (p : Path)
    (h : ∀ q ∈ files, q ≠ p) : FS.read (cleanup rf fs files) p = FS.read fs p := by
  induction files generalizing fs with
  | nil => rfl
  | cons q rest ih =>
    rw [cleanup_cons, ih _ (fun x hx => h x (List.mem_cons_of_mem _ hx)),
      cleanupOne_read_of_ne _ _ _ _ (h q (List.mem_cons_self _ _))]

/-- Cleanup never creates a file. -/
theorem cleanup_read_none (rf : Path → Bool) (files : List Path) (fs : FS) (p : Path)
    (h : FS.read fs p = none) : FS.read (cleanup rf fs files) p = none := by
  induction files generalizing fs with
  | nil => exact h
  | cons q rest ih =>
    rw [cleanup_cons]
    refine ih _ ?_
    unfold cleanupOne
    cases hq : FS.read fs q with
    | none => exact h
    | some c =>
      by_cases hrf : rf q
      · simpa [hrf] using h
      · simp only [hrf, if_neg, Bool.false_eq_true, ite_false, FS.read_erase]
        by_cases hqp : q = p <;> simp [hqp, h]

/-- A listed file whose removal does not fail is gone after cleanup. -/
theorem cleanup_read_mem (rf : Path → Bool) (files : List Path) (fs : FS) (p : Path)
    (hmem : p ∈ files) (hrf : rf p = false) :
    FS.read (cleanup rf fs files) p = none := by
  induction files generalizing fs with
  | nil => cases hmem
  | cons q rest ih =>
    rw [cleanup_cons]
    rcases List.mem_cons.mp hmem with hpq | hrest
    · subst hpq
      have hone : FS.read (cleanupOne rf fs p) p = none := by
        unfold cleanupOne
        cases hq : FS.read fs p with
        | none => exact hq
        | some c => simp [hrf, FS.read_erase]
      exact cleanup_read_none rf rest _ p hone
    · exact ih _ hrest

/-! ### Temp-name arithmetic -/

theorem splitextStem_append_html (s : String) : splitextStem (s ++ ".html") = s := by
  unfold splitextStem
  have hdata : (s ++ ".html").data = s.data ++ ['.', 'h', 't', 'm', 'l'] := rfl
  rw [hdata]
  have hmem : '.' ∈ s.data ++ ['.', 'h', 't', 'm', 'l'] := by simp
  rw [if_pos hmem, List.reverse_append]
  show String.mk ((List.dropWhile _ ('l' :: 'm' :: 't' :: 'h' :: '.' :: s.data.reverse)).drop 1).reverse = s
  rw [List.dropWhile_cons_of_pos (by decide), List.dropWhile_cons_of_pos (by decide),
    List.dropWhile_cons_of_pos (by decide), List.dropWhile_cons_of_pos (by decide),
    List.dropWhile_cons_of_neg (by decide)]
  simp

theorem append_html_ne_pdf (s : String) : s ++ ".html" ≠ s ++ ".pdf" := by
  intro h
  have hlen := congrArg String.length h
  simp only [String.length_append] at hlen
  have h5 : (".html" : String).length = 5 := rfl
  have h4 : (".pdf" : String).length = 4 := rfl
  omega

/-! ### Abstract pipeline outcome

`pipelineOut env inC` is the content `process_pdf` delivers at the output
path (`none` = overall failure) as a function of the collaborators and the
input file's content alone.  `processCore_char` below proves that, whenever
the temp names allocated by `tempfile` are fresh (distinct from the input
path, the output path, each other, and any pre-existing `<stem>.pdf`), the
run is fully described by it. -/

def pipelineOut (env : Env) (inC : Option Content) : Option Content :=
  if get_pdf_page_count env inC = 0 then none
  else
    match (if check_if_scanned env inC then run_ocr_on_pdf env inC PAGES_TO_PROCESS
           else extract_text_from_pdf env inC PAGES_TO_PROCESS) with
    | none => none
    | some full_text =>
      if full_text = "" then none
      else
        match (rewrite_text_with_ai env full_text).1 with
        | none => none
        | some body =>
          if body = "" then none
          else if env.sofficeExists = false then none
          else
            let oc := env.soffice (some (html_wrap body))
            match oc.deposited with
            | none => none
            | some rendered =>
              if oc.raises then none
              else if get_pdf_page_count env inC > PAGES_TO_PROCESS then
                match env.splitPages inC (PAGES_TO_PROCESS + 1) with
                | some tail => env.pdfunite [some rendered, some tail]
                | none => some rendered
              else some rendered

theorem processCore_char (env : Env) (fs : FS) (inP outP s tl : Path)
    (hi1 : inP ≠ s ++ ".html") (hi2 : inP ≠ s ++ ".pdf") (hi3 : inP ≠ tl)
    (ho1 : outP ≠ s ++ ".html") (ho2 : outP ≠ s ++ ".pdf") (ho3 : outP ≠ tl)
    (ht2 : s ++ ".pdf" ≠ tl)
    (hstale : FS.read fs (s ++ ".pdf") = none) :
    (processCore env fs inP outP s tl).success = (pipelineOut env (FS.read fs inP)).isSome ∧
    FS.read (processCore env fs inP outP s tl).fs outP =
      (match pipelineOut env (FS.read fs inP) with
       | some c => some c
       | none => FS.read fs outP) ∧
    (∀ q ∈ (processCore env fs inP outP s tl).temps,
      q = s ++ ".html" ∨ q = s ++ ".pdf" ∨ q = tl) := by
  have hne_hp := append_html_ne_pdf s
  unfold processCore pipelineOut
  by_cases hpc : get_pdf_page_count env (FS.read fs inP) = 0
  · simp [hpc]
  · simp only [hpc, if_false]
    cases hex : (if check_if_scanned env (FS.read fs inP) then
          run_ocr_on_pdf env (FS.read fs inP) PAGES_TO_PROCESS
        else extract_text_from_pdf env (FS.read fs inP) PAGES_TO_PROCESS) with
    | none => simp
    | some t =>
      by_cases htempty : t = ""
      · simp [htempty]
      · simp only [htempty, if_false]
        rcases hrw : rewrite_text_with_ai env t with ⟨rw, ai⟩
        simp only [hrw]
        cases rw with
        | none => simp
        | some body =>
          by_cases hbody : body = ""
          · simp [hbody]
          · simp only [hbody, if_false]
            cases hso : env.sofficeExists with
            | false =>
              simp [convert_html_to_pdf, hso, FS.read_write, Ne.symm ho1]
            | true =>
              simp only [convert_html_to_pdf, hso, Bool.true_eq_false, if_false,
                splitextStem_append_html, FS.read_write, if_pos rfl]
              cases hdep : (env.soffice (some (html_wrap body))).deposited with
              | none =>
                cases hrb : (env.soffice (some (html_wrap body))).raises <;>
                  simp [hdep, hrb, FS.read_write, hne_hp, hstale, Ne.symm ho1]
              | some rc =>
                cases hrb : (env.soffice (some (html_wrap body))).raises with
                | true =>
                  simp [hdep, hrb, FS.read_write, Ne.symm ho1, Ne.symm ho2]
                | false =>
                  by_cases hn : get_pdf_page_count env (FS.read fs inP) > PAGES_TO_PROCESS
                  · simp only [hdep, hrb, hn, Bool.false_eq_true, if_false, if_true,
                      split_pdf, FS.read_write, hne_hp, if_pos rfl]
                    rw [if_neg (Ne.symm hi3), if_neg (Ne.symm hi2), if_neg (Ne.symm hi1)]
                    cases hsp : env.splitPages (FS.read fs inP) (PAGES_TO_PROCESS + 1) with
                    | some tailC =>
                      simp only [merge_pdfs, List.map_cons, List.map_nil]
                      simp [FS.read_write, Ne.symm ht2, hne_hp, hstale,
                        Ne.symm ho1, Ne.symm ho2, Ne.symm ho3]
                      cases hm : env.pdfunite [some rc, some tailC] <;>
                        simp [hm, FS.read_write, hne_hp, hstale,
                          Ne.symm ho1, Ne.symm ho2, Ne.symm ho3]
                    | none =>
                      simp [FS.read_write, Ne.symm ht2, hne_hp, hstale,
                        Ne.symm ho1, Ne.symm ho2, Ne.symm ho3]
                  · simp [hdep, hrb, hn, FS.read_write, hne_hp, hstale,
                      Ne.symm ho1, Ne.symm ho2]

/-- Characterization of a full `process_pdf` run under fresh temp names:
its boolean result and the content left at the output path are those of the
abstract `pipelineOut`. -/
theorem process_pdf_char (env : Env) (rf : Path → Bool) (fs : FS) (inP outP s tl : Path)
    (hi1 : inP ≠ s ++ ".html") (hi2 : inP ≠ s ++ ".pdf") (hi3 : inP ≠ tl)
    (ho1 : outP ≠ s ++ ".html") (ho2 : outP ≠ s ++ ".pdf") (ho3 : outP ≠ tl)
    (ht2 : s ++ ".pdf" ≠ tl)
    (hstale : FS.read fs (s ++ ".pdf") = none) :
    (process_pdf env rf fs inP outP s tl).success = (pipelineOut env (FS.read fs inP)).isSome ∧
    FS.read (process_pdf env rf fs inP outP s tl).fs outP =
      (match pipelineOut env (FS.read fs inP) with
       | some c => some c
       | none => FS.read fs outP) := by
  obtain ⟨h1, h2, h3⟩ := processCore_char env fs inP outP s tl hi1 hi2 hi3 ho1 ho2 ho3 ht2 hstale
  refine ⟨h1, ?_⟩
  show FS.read (cleanup rf (processCore env fs inP outP s tl).fs
    (processCore env fs inP outP s tl).temps) outP = _
  rw [cleanup_read_of_ne]
  · exact h2
  · intro q hq
    rcases h3 q hq with h | h | h <;> subst h
    · exact Ne.symm ho1
    · exact Ne.symm ho2
    · exact Ne.symm ho3

/-- Any successful abstract outcome is either a renderer deposit or a
pdfunite concatenation. -/
theorem pipelineOut_cases (env : Env) (inC : Option Content) (c : Content)
    (h : pipelineOut env inC = some c) :
    (∃ oc, (env.soffice oc).deposited = some c) ∨ ∃ l, env.pdfunite l = some c := by
  unfold pipelineOut at h
  by_cases hpc : get_pdf_page_count env inC = 0
  · simp [hpc] at h
  · simp only [hpc, if_false] at h
    cases hex : (if check_if_scanned env inC then run_ocr_on_pdf env inC PAGES_TO_PROCESS
        else extract_text_from_pdf env inC PAGES_TO_PROCESS) with
    | none => rw [hex] at h; cases h
    | some t =>
      rw [hex] at h
      by_cases ht : t = ""
      · simp [ht] at h
      · simp only [ht, if_false] at h
        cases hrw : (rewrite_text_with_ai env t).1 with
        | none => rw [hrw] at h; cases h
        | some body =>
          rw [hrw] at h
          by_cases hb : body = ""
          · simp [hb] at h
          · simp only [hb, if_false] at h
            by_cases hso : env.sofficeExists = false
            · simp [hso] at h
            · simp only [hso, if_false] at h
              cases hdep : (env.soffice (some (html_wrap body))).deposited with
              | none => simp [hdep] at h
              | some rendered =>
                simp only [hdep] at h
                by_cases hrb : (env.soffice (some (html_wrap body))).raises = true
                · simp [hrb] at h
                · simp only [hrb, if_false] at h
                  by_cases hn : get_pdf_page_count env inC > PAGES_TO_PROCESS
                  · simp only [hn, if_true] at h
                    cases hsp : env.splitPages inC (PAGES_TO_PROCESS + 1) with
                    | some tail => rw [hsp] at h; exact Or.inr ⟨_, h⟩
                    | none =>
                      rw [hsp] at h
                      cases h
                      exact Or.inl ⟨_, hdep⟩
                  · simp only [hn, if_false] at h
                    cases h
                    exact Or.inl ⟨_, hdep⟩

/-- When every prior step succeeds but the splice fails, the abstract outcome
is the rendered replacement alone. -/
theorem pipelineOut_split_fail (env : Env) (inC : Option Content) (t body rc : Content)
    (hpc0 : get_pdf_page_count env inC ≠ 0)
    (hpc : get_pdf_page_count env inC > PAGES_TO_PROCESS)
    (hex : (if check_if_scanned env inC then run_ocr_on_pdf env inC PAGES_TO_PROCESS
            else extract_text_from_pdf env inC PAGES_TO_PROCESS) = some t)
    (ht : t ≠ "")
    (hai : (rewrite_text_with_ai env t).1 = some body) (hb : body ≠ "")
    (hso : env.sofficeExists = true)
    (hdep : (env.soffice (some (html_wrap body))).deposited = some rc)
    (hrb : (env.soffice (some (html_wrap body))).raises = false)
    (hsp : env.splitPages inC (PAGES_TO_PROCESS + 1) = none) :
    pipelineOut env inC = some rc := by
  unfold pipelineOut
  simp [hpc0, hpc, hex, ht, hai, hb, hso, hdep, hrb, hsp]

theorem pyStrip_empty : pyStrip "" = "" := rfl

/-- Blank (empty or whitespace-only) input short-circuits the rewriter. -/
theorem rewrite_blank (env : Env) (t : String) (h : pyStrip t = "") :
    rewrite_text_with_ai env t = (some "", 0) := by
  unfold rewrite_text_with_ai
  rw [if_pos (Or.inr h)]

/-- Non-blank input makes exactly one service round trip, returned verbatim. -/
theorem rewrite_nonblank (env : Env) (t : String) (h : pyStrip t ≠ "") :
    rewrite_text_with_ai env t = (env.generateContent (REWRITE_PROMPT ++ t), 1) := by
  have hcond : ¬ (t = "" ∨ pyStrip t = "") := by
    rintro (h1 | h2)
    · rw [h1, pyStrip_empty] at h
      exact h rfl
    · exact h h2
  unfold rewrite_text_with_ai
  rw [if_neg hcond]
  cases hg : env.generateContent (REWRITE_PROMPT ++ t) <;> simp [hg]

theorem ocrJoin_congr (env1 env2 : Env) (h : env1.ocrImage = env2.ocrImage) :
    ∀ l, ocrJoin env1 l = ocrJoin env2 l
  | [] => rfl
  | img :: rest => by
    unfold ocrJoin
    rw [h, ocrJoin_congr env1 env2 h rest]

/-- A successful abstract outcome on a short document is the renderer's
deposit for the wrapped AI body. -/
theorem pipelineOut_small (env : Env) (inC : Option Content) (c : Content)
    (hn : ¬ get_pdf_page_count env inC > PAGES_TO_PROCESS)
    (h : pipelineOut env inC = some c) :
    ∃ body, body ≠ "" ∧ (env.soffice (some (html_wrap body))).deposited = some c ∧
      (env.soffice (some (html_wrap body))).raises = false := by
  unfold pipelineOut at h
  by_cases hpc : get_pdf_page_count env inC = 0
  · simp [hpc] at h
  · simp only [hpc, if_false] at h
    cases hex : (if check_if_scanned env inC then run_ocr_on_pdf env inC PAGES_TO_PROCESS
        else extract_text_from_pdf env inC PAGES_TO_PROCESS) with
    | none => rw [hex] at h; cases h
    | some t =>
      rw [hex] at h
      by_cases ht : t = ""
      · simp [ht] at h
      · simp only [ht, if_false] at h
        cases hrw : (rewrite_text_with_ai env t).1 with
        | none => rw [hrw] at h; cases h
        | some body =>
          rw [hrw] at h
          by_cases hb : body = ""
          · simp [hb] at h
          · simp only [hb, if_false] at h
            by_cases hso : env.sofficeExists = false
            · simp [hso] at h
            · simp only [hso, if_false] at h
              cases hdep : (env.soffice (some (html_wrap body))).deposited with
              | none => simp [hdep] at h
              | some rendered =>
                simp only [hdep] at h
                by_cases hrb : (env.soffice (some (html_wrap body))).raises = true
                · simp [hrb] at h
                · simp only [hrb, if_false, hn] at h
                  cases h
                  exact ⟨body, hb, hdep, Bool.not_eq_true _ ▸ (eq_false_of_ne_true hrb)⟩

/-- With at most `PAGES_TO_PROCESS` pages, the abstract outcome does not
depend on the splicer or the merge tool at all. -/
theorem pipelineOut_indep (env : Env) (g : Option Content → Nat → Option Content)
    (m : List (Option Content) → Option Content) (inC : Option Content)
    (hn : ¬ get_pdf_page_count env inC > PAGES_TO_PROCESS) :
    pipelineOut { env with splitPages := g, pdfunite := m } inC = pipelineOut env inC := by
  have e1 : get_pdf_page_count { env with splitPages := g, pdfunite := m } =
      get_pdf_page_count env := rfl
  have e2 : check_if_scanned { env with splitPages := g, pdfunite := m } =
      check_if_scanned env := rfl
  have e3 : run_ocr_on_pdf { env with splitPages := g, pdfunite := m } =
      run_ocr_on_pdf env := by
    funext pdf n
    have ecv : ({ env with splitPages := g, pdfunite := m } : Env).convertFromPath =
        env.convertFromPath := rfl
    unfold run_ocr_on_pdf
    rw [ecv]
    cases env.convertFromPath pdf n with
    | none => rfl
    | some images =>
      exact ocrJoin_congr { env with splitPages := g, pdfunite := m } env rfl images
  have e4 : extract_text_from_pdf { env with splitPages := g, pdfunite := m } =
      extract_text_from_pdf env := rfl
  have e5 : rewrite_text_with_ai { env with splitPages := g, pdfunite := m } =
      rewrite_text_with_ai env := rfl
  have e6 : Env.sofficeExists { env with splitPages := g, pdfunite := m } =
      env.sofficeExists := rfl
  have e7 : Env.soffice { env with splitPages := g, pdfunite := m } = env.soffice := rfl
  unfold pipelineOut
  rw [e1, e2, e3, e4, e5, e6, e7]
  by_cases hpc : get_pdf_page_count env inC = 0
  · simp [hpc]
  · simp only [hpc, if_false]
    cases hex : (if check_if_scanned env inC then run_ocr_on_pdf env inC PAGES_TO_PROCESS
        else extract_text_from_pdf env inC PAGES_TO_PROCESS) with
    | none => rfl
    | some t =>
      by_cases ht : t = ""
      · simp [ht]
      · simp only [ht, if_false]
        cases hrw : (rewrite_text_with_ai env t).1 with
        | none => rfl
        | some body =>
          by_cases hb : body = ""
          · simp [hb]
          · simp only [hb, if_false]
            by_cases hso : env.sofficeExists = false
            · simp [hso]
            · simp only [hso, if_false]
              cases hdep : (env.soffice (some (html_wrap body))).deposited with
              | none => rfl
              | some rendered =>
                simp only [hdep]
                by_cases hrb : (env.soffice (some (html_wrap body))).raises = true
                · simp [hrb]
                · simp only [hrb, if_false, hn]

/-- The extraction stage is untouched by replacing the merge tool. -/
theorem extractStage_congr (env : Env) (m : List (Option Content) → Option Content)
    (inC : Option Content) :
    (if check_if_scanned { env with pdfunite := m } inC then
        run_ocr_on_pdf { env with pdfunite := m } inC PAGES_TO_PROCESS
      else extract_text_from_pdf { env with pdfunite := m } inC PAGES_TO_PROCESS) =
    (if check_if_scanned env inC then run_ocr_on_pdf env inC PAGES_TO_PROCESS
      else extract_text_from_pdf env inC PAGES_TO_PROCESS) := by
  have e2 : check_if_scanned { env with pdfunite := m } = check_if_scanned env := rfl
  have e3 : run_ocr_on_pdf { env with pdfunite := m } = run_ocr_on_pdf env := by
    funext pdf n
    have ecv : ({ env with pdfunite := m } : Env).convertFromPath =
        env.convertFromPath := rfl
    unfold run_ocr_on_pdf
    rw [ecv]
    cases env.convertFromPath pdf n with
    | none => rfl
    | some images => exact ocrJoin_congr { env with pdfunite := m } env rfl images
  have e4 : extract_text_from_pdf { env with pdfunite := m } =
      extract_text_from_pdf env := rfl
  rw [e2, e3, e4]

/-- A zero page count aborts the run body before anything is created. -/
theorem processCore_zero (env : Env) (fs : FS) (inP outP s tl : Path)
    (h : get_pdf_page_count env (FS.read fs inP) = 0) :
    processCore env fs inP outP s tl = ⟨false, fs, [], 0⟩ := by
  unfold processCore
  simp [h]

/-- A failed extraction stage aborts the run body before anything is created. -/
theorem processCore_extract_none (env : Env) (fs : FS) (inP outP s tl : Path)
    (hex : (if check_if_scanned env (FS.read fs inP) then
        run_ocr_on_pdf env (FS.read fs inP) PAGES_TO_PROCESS
      else extract_text_from_pdf env (FS.read fs inP) PAGES_TO_PROCESS) = none) :
    processCore env fs inP outP s tl = ⟨false, fs, [], 0⟩ := by
  by_cases hpc : get_pdf_page_count env (FS.read fs inP) = 0
  · exact processCore_zero env fs inP outP s tl hpc
  · unfold processCore
    simp [hpc, hex]

/-- A failed AI call aborts the run body before anything is created. -/
theorem processCore_ai_fail (env : Env) (fs : FS) (inP outP s tl : Path) (t : String)
    (hex : (if check_if_scanned env (FS.read fs inP) then
        run_ocr_on_pdf env (FS.read fs inP) PAGES_TO_PROCESS
      else extract_text_from_pdf env (FS.read fs inP) PAGES_TO_PROCESS) = some t)
    (ht : t ≠ "") (hst : pyStrip t ≠ "")
    (hgen : env.generateContent (REWRITE_PROMPT ++ t) = none) :
    (processCore env fs inP outP s tl).success = false ∧
    (processCore env fs inP outP s tl).fs = fs ∧
    (processCore env fs inP outP s tl).temps = [] := by
  by_cases hpc : get_pdf_page_count env (FS.read fs inP) = 0
  · rw [processCore_zero env fs inP outP s tl hpc]
    exact ⟨rfl, rfl, rfl⟩
  · have hcore : processCore env fs inP outP s tl = ⟨false, fs, [], 1⟩ := by
      unfold processCore
      simp [hpc, hex, ht, rewrite_nonblank env t hst, hgen]
    rw [hcore]
    exact ⟨rfl, rfl, rfl⟩

/-- A render failure with no renderer deposit leaves only the wrapper markup
file, registered for cleanup. -/
theorem processCore_render_fail (env : Env) (fs : FS) (inP outP s tl : Path)
    (t body : String)
    (hpc : get_pdf_page_count env (FS.read fs inP) ≠ 0)
    (hex : (if check_if_scanned env (FS.read fs inP) then
        run_ocr_on_pdf env (FS.read fs inP) PAGES_TO_PROCESS
      else extract_text_from_pdf env (FS.read fs inP) PAGES_TO_PROCESS) = some t)
    (ht : t ≠ "") (hai : (rewrite_text_with_ai env t).1 = some body) (hb : body ≠ "")
    (hdisj : env.sofficeExists = false ∨
      (env.soffice (some (html_wrap body))).deposited = none)
    (hstale : FS.read fs (s ++ ".pdf") = none) :
    (processCore env fs inP outP s tl).success = false ∧
    (processCore env fs inP outP s tl).fs =
      FS.write fs (s ++ ".html") (html_wrap body) ∧
    (processCore env fs inP outP s tl).temps = [s ++ ".html"] := by
  have hne_hp := append_html_ne_pdf s
  rcases hrw : rewrite_text_with_ai env t with ⟨rw1, ai⟩
  have hrw1 : rw1 = some body := by rw [← hai, hrw]
  subst hrw1
  have hconv : convert_html_to_pdf env (FS.write fs (s ++ ".html") (html_wrap body))
      (s ++ ".html") = (none, FS.write fs (s ++ ".html") (html_wrap body)) := by
    unfold convert_html_to_pdf
    rcases hdisj with hso | hdep
    · rw [if_pos hso]
    · cases hso : env.sofficeExists with
      | false => rfl
      | true =>
        simp only [hso, Bool.true_eq_false, if_false, splitextStem_append_html, hdep,
          FS.read_write]
        cases hrb : (env.soffice (some (html_wrap body))).raises with
        | true => simp [hrb, hdep]
        | false => simp [hrb, hdep, FS.read_write, hne_hp, hstale]
  unfold processCore
  simp [hpc, hex, ht, hrw, hb, hconv]

/-! ### Concrete stub collaborators used for witnesses and counterexamples -/

def twentyWords : String := "a b c d e f g h i j k l m n o p q r s t"

/-- A deterministic environment in which every collaborator succeeds. -/
def stubEnv : Env where
  readPdfPages := fun _ => some 5
  pdftotextPage1 := fun _ => ToolRun.completes 0 twentyWords
  pdftotextPages := fun _ _ => ToolRun.completes 0 "Hello there"
  convertFromPath := fun _ _ => some [1]
  ocrImage := fun _ => some "ocr text"
  generateContent := fun _ => some "<p>rewritten</p>"
  sofficeExists := true
  soffice := fun _ => ⟨false, some "RENDEREDPDF"⟩
  splitPages := fun _ _ => some "TAILPDF"
  pdfunite := fun _ => some "MERGEDPDF"

def rfNone : Path → Bool := fun _ => false

def fsIn : FS := [("in.pdf", "INPUTPDF")]

/-- Stub in which only the splice fails. -/
def envSplitFail : Env := { stubEnv with splitPages := fun _ _ => none }

/-- Stub in which direct extraction yields a whitespace-only page text. -/
def envWhitespace : Env :=
  { stubEnv with pdftotextPages := fun _ _ => ToolRun.completes 0 " " }

/-- Stub in which the extraction tools succeed with empty output. -/
def envEmptyOut : Env :=
  { stubEnv with pdftotextPages := fun _ _ => ToolRun.completes 0 ""
                 convertFromPath := fun _ _ => some [] }

/-- Stub in which direct extraction raises. -/
def envExtractRaises : Env :=
  { stubEnv with pdftotextPages := fun _ _ => ToolRun.raises }

/-- Stub for a one-page document. -/
def envOnePage : Env := { stubEnv with readPdfPages := fun _ => some 1 }

/-- Stub in which the page-1 probe exits 1 with empty output. -/
def envScanProbe : Env :=
  { stubEnv with pdftotextPage1 := fun _ => ToolRun.completes 1 "" }

/-! ### The claims -/

/-- Claim C4 (confirmed): an input whose page count is reported as 0 makes
`process_pdf` return failure immediately and leaves the file system — hence
the output path — untouched. -/
theorem claim_C4 (env : Env) (rf : Path → Bool) (fs : FS) (inP outP s tl : Path)
    (h : get_pdf_page_count env (FS.read fs inP) = 0) :
    (process_pdf env rf fs inP outP s tl).success = false ∧
    (process_pdf env rf fs inP outP s tl).fs = fs := by
  have hcore := processCore_zero env fs inP outP s tl h
  constructor
  · show (processCore env fs inP outP s tl).success = false
    rw [hcore]
  · show cleanup rf (processCore env fs inP outP s tl).fs
      (processCore env fs inP outP s tl).temps = fs
    rw [hcore]
    rfl

theorem claim_C4_witness :
    (process_pdf stubEnv rfNone [] "in.pdf" "out.pdf" "tmpa" "tmpb.pdf").success = false ∧
    (process_pdf stubEnv rfNone [] "in.pdf" "out.pdf" "tmpa" "tmpb.pdf").fs = [] :=
  claim_C4 stubEnv rfNone [] "in.pdf" "out.pdf" "tmpa" "tmpb.pdf" rfl

/-- Claim C6 (confirmed): `check_if_scanned` classifies the document as
scanned exactly when the page-1 pdftotext probe exits non-zero or the
stripped first-page word count is strictly below 20, and as text otherwise;
an internal exception merely yields `false` — the pipeline never crashes. -/
theorem claim_C6 (env : Env) (pdf : Option Content) :
    (∀ (rc : Int) (out : String), env.pdftotextPage1 pdf = ToolRun.completes rc out →
      (check_if_scanned env pdf = true ↔ (rc ≠ 0 ∨ pyWordCount (pyStrip out) < 20))) ∧
    (env.pdftotextPage1 pdf = ToolRun.raises → check_if_scanned env pdf = false) := by
  constructor
  · intro rc out h
    unfold check_if_scanned
    rw [h]
    simp [Bool.or_eq_true, bne_iff_ne, decide_eq_true_eq]
  · intro h
    unfold check_if_scanned
    rw [h]

theorem claim_C6_witness : check_if_scanned envScanProbe (some "INPUTPDF") = true :=
  ((claim_C6 envScanProbe (some "INPUTPDF")).1 1 "" rfl).mpr (Or.inl (by decide))

/-- Claim C7 (corrected): the rewriter short-circuits empty OR whitespace-only
input to `""` with zero service calls; for input containing non-whitespace it
makes exactly one round trip, returning the response verbatim on success and
the failure signal (none) on error. -/
theorem claim_C7_amended (env : Env) (text : String) :
    (pyStrip text = "" → rewrite_text_with_ai env text = (some "", 0)) ∧
    (pyStrip text ≠ "" →
      rewrite_text_with_ai env text = (env.generateContent (REWRITE_PROMPT ++ text), 1)) :=
  ⟨rewrite_blank env text, rewrite_nonblank env text⟩

/-- Claim C7 counterexample: on the non-empty input `" "`, with the service
ready to answer, the rewriter returns `""` with zero round trips rather than
the service response. -/
theorem claim_C7_counterexample :
    (" " : String) ≠ "" ∧
    stubEnv.generateContent (REWRITE_PROMPT ++ " ") = some "<p>rewritten</p>" ∧
    rewrite_text_with_ai stubEnv " " = (some "", 0) :=
  ⟨by decide, rfl, rfl⟩

theorem claim_C7_witness :
    rewrite_text_with_ai stubEnv "Hello" =
      (stubEnv.generateContent (REWRITE_PROMPT ++ "Hello"), 1) :=
  (claim_C7_amended stubEnv "Hello").2 (by decide)

/-- Claim C5 (corrected): each extraction variant returns either the failure
signal (none) or the verbatim tool output — which CAN be the empty string on
a successful tool run (pdftotext exiting 0 with empty stdout; OCR over an
empty image list); a successful OCR join over at least one page image is
always non-empty. -/
theorem claim_C5_amended (env : Env) (pdf : Option Content) (n : Nat) :
    (extract_text_from_pdf env pdf n = none ∨
      ∃ out, env.pdftotextPages pdf n = ToolRun.completes 0 out ∧
        extract_text_from_pdf env pdf n = some out) ∧
    (run_ocr_on_pdf env pdf n = none ∨
      ∃ imgs, env.convertFromPath pdf n = some imgs ∧
        run_ocr_on_pdf env pdf n = ocrJoin env imgs) ∧
    (∀ imgs str, imgs ≠ [] → ocrJoin env imgs = some str → str ≠ "") := by
  refine ⟨?_, ?_, ?_⟩
  · unfold extract_text_from_pdf
    cases htr : env.pdftotextPages pdf n with
    | raises => exact Or.inl rfl
    | completes rc out =>
      by_cases hrc : rc = 0
      · subst hrc
        exact Or.inr ⟨out, rfl, by simp⟩
      · exact Or.inl (by simp [hrc])
  · unfold run_ocr_on_pdf
    cases hcv : env.convertFromPath pdf n with
    | none => exact Or.inl rfl
    | some imgs => exact Or.inr ⟨imgs, rfl, rfl⟩
  · intro imgs str hne hj
    cases imgs with
    | nil => exact absurd rfl hne
    | cons i rest =>
      unfold ocrJoin at hj
      cases hoi : env.ocrImage i with
      | none => rw [hoi] at hj; cases hj
      | some tx =>
        rw [hoi] at hj
        cases hrest : ocrJoin env rest with
        | none => rw [hrest] at hj; cases hj
        | some r =>
          rw [hrest] at hj
          cases hj
          intro hemp
          have hlen := congrArg String.length hemp
          have h2 : ("\n\n" : String).length = 2 := rfl
          have h0 : ("" : String).length = 0 := rfl
          simp only [String.length_append, h2, h0] at hlen
          omega

/-- Claim C5 counterexample: pdftotext exiting 0 with empty stdout makes the
direct variant return `some ""`, and OCR over an empty image list returns
`some ""` — empty results without the failure signal. -/
theorem claim_C5_counterexample :
    extract_text_from_pdf envEmptyOut (some "INPUTPDF") PAGES_TO_PROCESS = some "" ∧
    run_ocr_on_pdf envEmptyOut (some "INPUTPDF") PAGES_TO_PROCESS = some "" :=
  ⟨rfl, rfl⟩

theorem claim_C5_witness :
    extract_text_from_pdf stubEnv (some "INPUTPDF") PAGES_TO_PROCESS = none ∨
      ∃ out, stubEnv.pdftotextPages (some "INPUTPDF") PAGES_TO_PROCESS =
          ToolRun.completes 0 out ∧
        extract_text_from_pdf stubEnv (some "INPUTPDF") PAGES_TO_PROCESS = some out :=
  (claim_C5_amended stubEnv (some "INPUTPDF") PAGES_TO_PROCESS).1

/-- Claim C10 (confirmed): extraction that succeeds with a non-empty but
whitespace-only string makes the run fail with zero AI-service calls — the
rewriter short-circuits it to `""` and the orchestrator treats `""` as an AI
failure — leaving the file system untouched. -/
theorem claim_C10 (env : Env) (rf : Path → Bool) (fs : FS) (inP outP s tl : Path)
    (t : String)
    (hpc : get_pdf_page_count env (FS.read fs inP) ≠ 0)
    (hex : (if check_if_scanned env (FS.read fs inP) then
        run_ocr_on_pdf env (FS.read fs inP) PAGES_TO_PROCESS
      else extract_text_from_pdf env (FS.read fs inP) PAGES_TO_PROCESS) = some t)
    (ht : t ≠ "") (hws : pyStrip t = "") :
    (process_pdf env rf fs inP outP s tl).success = false ∧
    (process_pdf env rf fs inP outP s tl).aiCalls = 0 ∧
    (process_pdf env rf fs inP outP s tl).fs = fs := by
  have hcore : processCore env fs inP outP s tl = ⟨false, fs, [], 0⟩ := by
    unfold processCore
    simp [hpc, hex, ht, rewrite_blank env t hws]
  refine ⟨?_, ?_, ?_⟩
  · show (processCore env fs inP outP s tl).success = false
    rw [hcore]
  · show (processCore env fs inP outP s tl).aiCalls = 0
    rw [hcore]
  · show cleanup rf (processCore env fs inP outP s tl).fs
      (processCore env fs inP outP s tl).temps = fs
    rw [hcore]
    rfl

theorem claim_C10_witness :
    (process_pdf envWhitespace rfNone fsIn "in.pdf" "out.pdf" "tmpa" "tmpb.pdf").success
        = false ∧
    (process_pdf envWhitespace rfNone fsIn "in.pdf" "out.pdf" "tmpa" "tmpb.pdf").aiCalls
        = 0 ∧
    (process_pdf envWhitespace rfNone fsIn "in.pdf" "out.pdf" "tmpa" "tmpb.pdf").fs = fsIn :=
  claim_C10 envWhitespace rfNone fsIn "in.pdf" "out.pdf" "tmpa" "tmpb.pdf" " "
    (by decide) rfl (by decide) rfl

/-- Claim C2 (confirmed): with fresh temp names and the external contracts of
§6 — a renderer deposit and a pdfunite output are non-empty PDFs —
`success = true` guarantees a non-empty file at the output path (either the
pdfunite concatenation or a byte copy of the rendered PDF). -/
theorem claim_C2 (env : Env) (rf : Path → Bool) (fs : FS) (inP outP s tl : Path)
    (hi1 : inP ≠ s ++ ".html") (hi2 : inP ≠ s ++ ".pdf") (hi3 : inP ≠ tl)
    (ho1 : outP ≠ s ++ ".html") (ho2 : outP ≠ s ++ ".pdf") (ho3 : outP ≠ tl)
    (ht2 : s ++ ".pdf" ≠ tl)
    (hstale : FS.read fs (s ++ ".pdf") = none)
    (hu : ∀ l d, env.pdfunite l = some d → d ≠ "")
    (hd : ∀ oc d, (env.soffice oc).deposited = some d → d ≠ "")
    (hs : (process_pdf env rf fs inP outP s tl).success = true) :
    ∃ c, FS.read (process_pdf env rf fs inP outP s tl).fs outP = some c ∧ c ≠ "" := by
  obtain ⟨h1, h2⟩ :=
    process_pdf_char env rf fs inP outP s tl hi1 hi2 hi3 ho1 ho2 ho3 ht2 hstale
  rw [hs] at h1
  cases hp : pipelineOut env (FS.read fs inP) with
  | none => rw [hp] at h1; simp at h1
  | some c =>
    refine ⟨c, ?_, ?_⟩
    · rw [h2, hp]
    · rcases pipelineOut_cases env _ c hp with ⟨oc, hdep⟩ | ⟨l, hm⟩
      · exact hd oc c hdep
      · exact hu l c hm

theorem claim_C2_witness :
    ∃ c, FS.read (process_pdf stubEnv rfNone fsIn "in.pdf" "out.pdf" "tmpa" "tmpb.pdf").fs
        "out.pdf" = some c ∧ c ≠ "" :=
  claim_C2 stubEnv rfNone fsIn "in.pdf" "out.pdf" "tmpa" "tmpb.pdf"
    (by decide) (by decide) (by decide) (by decide) (by decide) (by decide) (by decide) rfl
    (fun _ d h => by
      have h2 : some ("MERGEDPDF" : Content) = some d := h
      cases h2
      decide)
    (fun _ d h => by
      have h2 : some ("RENDEREDPDF" : Content) = some d := h
      cases h2
      decide)
    rfl

/-- Claim C9 (confirmed): with deterministic collaborators, two runs of
`process_pdf` on the same input — whatever fresh temp names tempfile
allocates and whichever cleanup removals fail — return the same boolean and
leave byte-identical content at the output path: the pipeline itself adds no
nondeterminism to the output. -/
theorem claim_C9 (env : Env) (rf1 rf2 : Path → Bool) (fs : FS)
    (inP outP s1 tl1 s2 tl2 : Path)
    (h11 : inP ≠ s1 ++ ".html") (h12 : inP ≠ s1 ++ ".pdf") (h13 : inP ≠ tl1)
    (h14 : outP ≠ s1 ++ ".html") (h15 : outP ≠ s1 ++ ".pdf") (h16 : outP ≠ tl1)
    (h17 : s1 ++ ".pdf" ≠ tl1) (h18 : FS.read fs (s1 ++ ".pdf") = none)
    (h21 : inP ≠ s2 ++ ".html") (h22 : inP ≠ s2 ++ ".pdf") (h23 : inP ≠ tl2)
    (h24 : outP ≠ s2 ++ ".html") (h25 : outP ≠ s2 ++ ".pdf") (h26 : outP ≠ tl2)
    (h27 : s2 ++ ".pdf" ≠ tl2) (h28 : FS.read fs (s2 ++ ".pdf") = none) :
    (process_pdf env rf1 fs inP outP s1 tl1).success =
      (process_pdf env rf2 fs inP outP s2 tl2).success ∧
    FS.read (process_pdf env rf1 fs inP outP s1 tl1).fs outP =
      FS.read (process_pdf env rf2 fs inP outP s2 tl2).fs outP := by
  obtain ⟨a1, b1⟩ :=
    process_pdf_char env rf1 fs inP outP s1 tl1 h11 h12 h13 h14 h15 h16 h17 h18
  obtain ⟨a2, b2⟩ :=
    process_pdf_char env rf2 fs inP outP s2 tl2 h21 h22 h23 h24 h25 h26 h27 h28
  exact ⟨a1.trans a2.symm, b1.trans b2.symm⟩

theorem claim_C9_witness :
    (process_pdf stubEnv rfNone fsIn "in.pdf" "out.pdf" "tmpa" "tmpb.pdf").success =
      (process_pdf stubEnv (fun _ => true) fsIn "in.pdf" "out.pdf" "tmpc" "tmpd.pdf").success ∧
    FS.read (process_pdf stubEnv rfNone fsIn "in.pdf" "out.pdf" "tmpa" "tmpb.pdf").fs
        "out.pdf" =
      FS.read (process_pdf stubEnv (fun _ => true) fsIn "in.pdf" "out.pdf" "tmpc"
        "tmpd.pdf").fs "out.pdf" :=
  claim_C9 stubEnv rfNone (fun _ => true) fsIn "in.pdf" "out.pdf" "tmpa" "tmpb.pdf"
    "tmpc" "tmpd.pdf"
    (by decide) (by decide) (by decide) (by decide) (by decide) (by decide) (by decide) rfl
    (by decide) (by decide) (by decide) (by decide) (by decide) (by decide) (by decide) rfl

/-- Claim C8 (confirmed): a successful run on a document with at most
`PAGES_TO_PROCESS` pages writes a byte-identical copy of the rendered
replacement PDF to the output path, and neither the splicer nor the merge
tool can influence the result: the splice step is skipped entirely and the
merge degenerates to a pure copy. -/
theorem claim_C8 (env : Env) (rf : Path → Bool) (fs : FS) (inP outP s tl : Path)
    (hi1 : inP ≠ s ++ ".html") (hi2 : inP ≠ s ++ ".pdf") (hi3 : inP ≠ tl)
    (ho1 : outP ≠ s ++ ".html") (ho2 : outP ≠ s ++ ".pdf") (ho3 : outP ≠ tl)
    (ht2 : s ++ ".pdf" ≠ tl)
    (hstale : FS.read fs (s ++ ".pdf") = none)
    (hn : ¬ get_pdf_page_count env (FS.read fs inP) > PAGES_TO_PROCESS)
    (hs : (process_pdf env rf fs inP outP s tl).success = true) :
    ∃ body c, body ≠ "" ∧ (env.soffice (some (html_wrap body))).deposited = some c ∧
      FS.read (process_pdf env rf fs inP outP s tl).fs outP = some c ∧
      ∀ (g : Option Content → Nat → Option Content)
        (m : List (Option Content) → Option Content),
        (process_pdf { env with splitPages := g, pdfunite := m } rf fs inP outP
            s tl).success = true ∧
        FS.read (process_pdf { env with splitPages := g, pdfunite := m } rf fs inP outP
            s tl).fs outP = some c := by
  obtain ⟨h1, h2⟩ :=
    process_pdf_char env rf fs inP outP s tl hi1 hi2 hi3 ho1 ho2 ho3 ht2 hstale
  rw [hs] at h1
  cases hp : pipelineOut env (FS.read fs inP) with
  | none => rw [hp] at h1; simp at h1
  | some c =>
    obtain ⟨body, hb, hdep, hrb⟩ := pipelineOut_small env _ c hn hp
    refine ⟨body, c, hb, hdep, by rw [h2, hp], ?_⟩
    intro g m
    obtain ⟨g1, g2⟩ := process_pdf_char { env with splitPages := g, pdfunite := m }
      rf fs inP outP s tl hi1 hi2 hi3 ho1 ho2 ho3 ht2 hstale
    have hp2 : pipelineOut { env with splitPages := g, pdfunite := m }
        (FS.read fs inP) = some c := by
      rw [pipelineOut_indep env g m _ hn, hp]
    constructor
    · rw [g1, hp2]
      rfl
    · rw [g2, hp2]

theorem claim_C8_witness :
    ∃ body c, body ≠ "" ∧
      (envOnePage.soffice (some (html_wrap body))).deposited = some c ∧
      FS.read (process_pdf envOnePage rfNone fsIn "in.pdf" "out.pdf" "tmpa"
        "tmpb.pdf").fs "out.pdf" = some c ∧
      ∀ (g : Option Content → Nat → Option Content)
        (m : List (Option Content) → Option Content),
        (process_pdf { envOnePage with splitPages := g, pdfunite := m } rfNone fsIn
            "in.pdf" "out.pdf" "tmpa" "tmpb.pdf").success = true ∧
        FS.read (process_pdf { envOnePage with splitPages := g, pdfunite := m } rfNone
            fsIn "in.pdf" "out.pdf" "tmpa" "tmpb.pdf").fs "out.pdf" = some c :=
  claim_C8 envOnePage rfNone fsIn "in.pdf" "out.pdf" "tmpa" "tmpb.pdf"
    (by decide) (by decide) (by decide) (by decide) (by decide) (by decide) (by decide) rfl
    (by decide) rfl

/-- Claim C1 counterexample: with a page count above `PAGES_TO_PROCESS` and a
failing splice, the run nevertheless returns success and an output file is
produced at the output path (the rendered replacement alone) — the splice
failure neither short-circuits the pipeline nor yields overall failure. -/
theorem claim_C1_counterexample :
    envSplitFail.splitPages (FS.read fsIn "in.pdf") (PAGES_TO_PROCESS + 1) = none ∧
    get_pdf_page_count envSplitFail (FS.read fsIn "in.pdf") > PAGES_TO_PROCESS ∧
    (process_pdf envSplitFail rfNone fsIn "in.pdf" "out.pdf" "tmpa" "tmpb.pdf").success
        = true ∧
    FS.read (process_pdf envSplitFail rfNone fsIn "in.pdf" "out.pdf" "tmpa"
        "tmpb.pdf").fs "out.pdf" = some "RENDEREDPDF" :=
  ⟨rfl, by decide, rfl, rfl⟩

/-- Claim C1 (corrected): a splice failure does NOT short-circuit the run.
When every step up to rendering succeeds, the page count exceeds
`PAGES_TO_PROCESS` and `split_pdf` fails, the run silently continues without
the tail: the merge step degenerates to a copy of the rendered replacement
(the merge tool is never consulted) and the run returns success with the
rendered PDF as the output file. -/
theorem claim_C1_amended (env : Env) (rf : Path → Bool) (fs : FS) (inP outP s tl : Path)
    (t body rc : Content)
    (hi1 : inP ≠ s ++ ".html") (hi2 : inP ≠ s ++ ".pdf") (hi3 : inP ≠ tl)
    (ho1 : outP ≠ s ++ ".html") (ho2 : outP ≠ s ++ ".pdf") (ho3 : outP ≠ tl)
    (ht2 : s ++ ".pdf" ≠ tl)
    (hstale : FS.read fs (s ++ ".pdf") = none)
    (hpc0 : get_pdf_page_count env (FS.read fs inP) ≠ 0)
    (hpc : get_pdf_page_count env (FS.read fs inP) > PAGES_TO_PROCESS)
    (hex : (if check_if_scanned env (FS.read fs inP) then
        run_ocr_on_pdf env (FS.read fs inP) PAGES_TO_PROCESS
      else extract_text_from_pdf env (FS.read fs inP) PAGES_TO_PROCESS) = some t)
    (ht : t ≠ "")
    (hai : (rewrite_text_with_ai env t).1 = some body) (hb : body ≠ "")
    (hso : env.sofficeExists = true)
    (hdep : (env.soffice (some (html_wrap body))).deposited = some rc)
    (hrb : (env.soffice (some (html_wrap body))).raises = false)
    (hsp : env.splitPages (FS.read fs inP) (PAGES_TO_PROCESS + 1) = none) :
    (process_pdf env rf fs inP outP s tl).success = true ∧
    FS.read (process_pdf env rf fs inP outP s tl).fs outP = some rc ∧
    ∀ (m : List (Option Content) → Option Content),
      (process_pdf { env with pdfunite := m } rf fs inP outP s tl).success = true ∧
      FS.read (process_pdf { env with pdfunite := m } rf fs inP outP s tl).fs outP
          = some rc := by
  have hpipe : pipelineOut env (FS.read fs inP) = some rc :=
    pipelineOut_split_fail env _ t body rc hpc0 hpc hex ht hai hb hso hdep hrb hsp
  obtain ⟨h1, h2⟩ :=
    process_pdf_char env rf fs inP outP s tl hi1 hi2 hi3 ho1 ho2 ho3 ht2 hstale
  refine ⟨by rw [h1, hpipe]; rfl, by rw [h2, hpipe], ?_⟩
  intro m
  have hex2 : (if check_if_scanned { env with pdfunite := m } (FS.read fs inP) then
      run_ocr_on_pdf { env with pdfunite := m } (FS.read fs inP) PAGES_TO_PROCESS
    else extract_text_from_pdf { env with pdfunite := m } (FS.read fs inP)
      PAGES_TO_PROCESS) = some t :=
    (extractStage_congr env m (FS.read fs inP)).trans hex
  have hpipe2 : pipelineOut { env with pdfunite := m } (FS.read fs inP) = some rc :=
    pipelineOut_split_fail { env with pdfunite := m } _ t body rc hpc0 hpc hex2 ht hai
      hb hso hdep hrb hsp
  obtain ⟨g1, g2⟩ := process_pdf_char { env with pdfunite := m } rf fs inP outP s tl
    hi1 hi2 hi3 ho1 ho2 ho3 ht2 hstale
  exact ⟨by rw [g1, hpipe2]; rfl, by rw [g2, hpipe2]⟩

theorem claim_C1_witness :
    (process_pdf envSplitFail rfNone fsIn "in.pdf" "out2.pdf" "tmpc" "tmpd.pdf").success
        = true ∧
    FS.read (process_pdf envSplitFail rfNone fsIn "in.pdf" "out2.pdf" "tmpc"
        "tmpd.pdf").fs "out2.pdf" = some "RENDEREDPDF" ∧
    ∀ (m : List (Option Content) → Option Content),
      (process_pdf { envSplitFail with pdfunite := m } rfNone fsIn "in.pdf" "out2.pdf"
          "tmpc" "tmpd.pdf").success = true ∧
      FS.read (process_pdf { envSplitFail with pdfunite := m } rfNone fsIn "in.pdf"
          "out2.pdf" "tmpc" "tmpd.pdf").fs "out2.pdf" = some "RENDEREDPDF" :=
  claim_C1_amended envSplitFail rfNone fsIn "in.pdf" "out2.pdf" "tmpc" "tmpd.pdf"
    "Hello there" "<p>rewritten</p>" "RENDEREDPDF"
    (by decide) (by decide) (by decide) (by decide) (by decide) (by decide) (by decide)
    rfl (by decide) (by decide) rfl (by decide) rfl (by decide) rfl rfl rfl rfl

/-- Claim C3 counterexample: when the splice fails, the pre-created empty
spliced-tail temp file is never registered in `temp_files`; the final cleanup
does not delete it and it remains on disk after the run — a residual
intermediate artifact. -/
theorem claim_C3_counterexample :
    FS.read fsIn "tmpb.pdf" = none ∧
    FS.read (process_pdf envSplitFail rfNone fsIn "in.pdf" "out.pdf" "tmpa"
        "tmpb.pdf").fs "tmpb.pdf" = some "" :=
  ⟨rfl, rfl⟩

/-- Claim C3 (corrected): every artifact REGISTERED in `temp_files` (wrapper
markup file, rendered PDF, and the spliced tail when splicing succeeds) is
deleted by the final cleanup on success and failure paths alike, whenever its
removal does not itself fail; runs failing at extraction or at the AI call
create no files at all; a render failure with no renderer deposit restores
the file system as found; and a failure of the cleanup itself never changes
the returned result or the AI call count.  (Exception, per the
counterexample: a failed splice leaves its pre-created empty tail file
unregistered and on disk.) -/
theorem claim_C3_amended (env : Env) (rf : Path → Bool) (fs : FS) (inP outP s tl : Path) :
    ((if check_if_scanned env (FS.read fs inP) then
        run_ocr_on_pdf env (FS.read fs inP) PAGES_TO_PROCESS
      else extract_text_from_pdf env (FS.read fs inP) PAGES_TO_PROCESS) = none →
      (process_pdf env rf fs inP outP s tl).success = false ∧
      (process_pdf env rf fs inP outP s tl).fs = fs) ∧
    (∀ t, (if check_if_scanned env (FS.read fs inP) then
        run_ocr_on_pdf env (FS.read fs inP) PAGES_TO_PROCESS
      else extract_text_from_pdf env (FS.read fs inP) PAGES_TO_PROCESS) = some t →
      t ≠ "" → pyStrip t ≠ "" →
      env.generateContent (REWRITE_PROMPT ++ t) = none →
      (process_pdf env rf fs inP outP s tl).success = false ∧
      (process_pdf env rf fs inP outP s tl).fs = fs) ∧
    (∀ t body, (if check_if_scanned env (FS.read fs inP) then
        run_ocr_on_pdf env (FS.read fs inP) PAGES_TO_PROCESS
      else extract_text_from_pdf env (FS.read fs inP) PAGES_TO_PROCESS) = some t →
      t ≠ "" → (rewrite_text_with_ai env t).1 = some body → body ≠ "" →
      (env.sofficeExists = false ∨
        (env.soffice (some (html_wrap body))).deposited = none) →
      FS.read fs (s ++ ".html") = none → FS.read fs (s ++ ".pdf") = none →
      rf (s ++ ".html") = false →
      (process_pdf env rf fs inP outP s tl).success = false ∧
      (process_pdf env rf fs inP outP s tl).fs = fs) ∧
    (∀ rfa rfb : Path → Bool,
      (process_pdf env rfa fs inP outP s tl).success =
        (process_pdf env rfb fs inP outP s tl).success ∧
      (process_pdf env rfa fs inP outP s tl).aiCalls =
        (process_pdf env rfb fs inP outP s tl).aiCalls) ∧
    (∀ q ∈ (processCore env fs inP outP s tl).temps, rf q = false →
      FS.read (process_pdf env rf fs inP outP s tl).fs q = none) := by
  refine ⟨?_, ?_, ?_, ?_, ?_⟩
  · intro hex
    have hcore := processCore_extract_none env fs inP outP s tl hex
    constructor
    · show (processCore env fs inP outP s tl).success = false
      rw [hcore]
    · show cleanup rf (processCore env fs inP outP s tl).fs
        (processCore env fs inP outP s tl).temps = fs
      rw [hcore]
      rfl
  · intro t hex ht hst hgen
    obtain ⟨c1, c2, c3⟩ := processCore_ai_fail env fs inP outP s tl t hex ht hst hgen
    constructor
    · exact c1
    · show cleanup rf (processCore env fs inP outP s tl).fs
        (processCore env fs inP outP s tl).temps = fs
      rw [c2, c3]
      rfl
  · intro t body hex ht hai hb hdisj hfresh hstale hrf
    by_cases hpc : get_pdf_page_count env (FS.read fs inP) = 0
    · have hcore := processCore_zero env fs inP outP s tl hpc
      constructor
      · show (processCore env fs inP outP s tl).success = false
        rw [hcore]
      · show cleanup rf (processCore env fs inP outP s tl).fs
          (processCore env fs inP outP s tl).temps = fs
        rw [hcore]
        rfl
    · obtain ⟨c1, c2, c3⟩ := processCore_render_fail env fs inP outP s tl t body hpc
        hex ht hai hb hdisj hstale
      refine ⟨c1, ?_⟩
      show cleanup rf (processCore env fs inP outP s tl).fs
        (processCore env fs inP outP s tl).temps = fs
      rw [c2, c3, cleanup_cons]
      show cleanup rf (cleanupOne rf _ _) [] = fs
      rw [cleanup_nil]
      unfold cleanupOne
      rw [FS.read_write, if_pos rfl]
      simp only [hrf, Bool.false_eq_true, if_neg, ite_false]
      rw [FS.erase_write, FS.erase_of_read_none fs _ hfresh]
  · intro rfa rfb
    exact ⟨rfl, rfl⟩
  · intro q hq hrfq
    show FS.read (cleanup rf (processCore env fs inP outP s tl).fs
      (processCore env fs inP outP s tl).temps) q = none
    exact cleanup_read_mem rf _ _ q hq hrfq

theorem claim_C3_witness :
    (process_pdf envExtractRaises rfNone fsIn "in.pdf" "out.pdf" "tmpa"
        "tmpb.pdf").success = false ∧
    (process_pdf envExtractRaises rfNone fsIn "in.pdf" "out.pdf" "tmpa"
        "tmpb.pdf").fs = fsIn :=
  (claim_C3_amended envExtractRaises rfNone fsIn "in.pdf" "out.pdf" "tmpa"
    "tmpb.pdf").1 rfl

end PdfEditApi
